import Mathlib

/-!
Verification of the spatial choreography engine of `src/index.tsx`.

The embedding translates, over the real numbers:
  * the three.js vector operations actually used by the code
    (`add`, `sub`, `multiplyScalar`, `length`, `distanceTo`, `normalize`,
    where `normalize` divides by `length() || 1` as in three.js);
  * the per-ornament physics step of `updateList` (lines 401-491),
    including the per-type profile table (lines 408-447);
  * the global mode hysteresis of `predictWebcam` (lines 984-988);
  * the foliage progress low-pass filter of `Foliage` (lines 231-236),
    with `THREE.MathUtils.lerp x y t = (1 - t) * x + t * y`;
  * the layout generators `generateTreeData` (lines 177-215) and the
    ornament generator inside `Ornaments` (lines 295-316), as functions of
    their random draws (each draw is a number in [0,1], standing for one
    `Math.random()` result);
  * the focus selection loop of `Polaroids` (lines 637-673).
-/

/-- Three-component real vector, standing for `THREE.Vector3`. -/
@[ext] structure Vec3 where
  x : ℝ
  y : ℝ
  z : ℝ

namespace Vec3

def add (a b : Vec3) : Vec3 := ⟨a.x + b.x, a.y + b.y, a.z + b.z⟩

def sub (a b : Vec3) : Vec3 := ⟨a.x - b.x, a.y - b.y, a.z - b.z⟩

/-- `v.multiplyScalar c` of three.js. -/
def smul (c : ℝ) (v : Vec3) : Vec3 := ⟨c * v.x, c * v.y, c * v.z⟩

def zero : Vec3 := ⟨0, 0, 0⟩

instance : Add Vec3 := ⟨Vec3.add⟩

instance : Sub Vec3 := ⟨Vec3.sub⟩

instance : SMul ℝ Vec3 := ⟨Vec3.smul⟩

@[simp] theorem add_def (a b : Vec3) : a + b = ⟨a.x + b.x, a.y + b.y, a.z + b.z⟩ := rfl

@[simp] theorem sub_def (a b : Vec3) : a - b = ⟨a.x - b.x, a.y - b.y, a.z - b.z⟩ := rfl

@[simp] theorem smul_def (c : ℝ) (v : Vec3) : c • v = ⟨c * v.x, c * v.y, c * v.z⟩ := rfl

/-- `v.length()` of three.js. -/
noncomputable def norm (v : Vec3) : ℝ := Real.sqrt (v.x ^ 2 + v.y ^ 2 + v.z ^ 2)

/-- `a.distanceTo b` of three.js. -/
noncomputable def distTo (a b : Vec3) : ℝ := norm (a - b)

/-- `v.normalize()` of three.js: `divideScalar (length() || 1)`, so the zero
vector (length `0`, falsy) is divided by `1` and stays the zero vector. -/
noncomputable def normalize (v : Vec3) : Vec3 :=
  (if norm v = 0 then 1 else norm v)⁻¹ • v

@[simp] theorem add_zero (v : Vec3) : v + zero = v := by
  simp [zero]

@[simp] theorem zero_add (v : Vec3) : zero + v = v := by
  simp [zero]

@[simp] theorem zero_smul (v : Vec3) : (0 : ℝ) • v = zero := by
  simp [zero]

@[simp] theorem smul_zero (c : ℝ) : c • zero = zero := by
  simp [zero]

theorem smul_smul (c d : ℝ) (v : Vec3) : c • (d • v) = (c * d) • v := by
  ext <;> simp <;> ring

@[simp] theorem sub_self (v : Vec3) : v - v = zero := by
  simp [zero]

@[simp] theorem norm_zero : norm zero = 0 := by
  simp [norm, zero]

theorem norm_nonneg (v : Vec3) : 0 ≤ norm v := Real.sqrt_nonneg _

@[simp] theorem distTo_self (v : Vec3) : distTo v v = 0 := by
  simp [distTo, norm]

@[simp] theorem normalize_zero : normalize zero = zero := by
  simp [normalize, zero]

theorem normalize_of_norm_ne_zero {v : Vec3} (h : norm v ≠ 0) :
    normalize v = (norm v)⁻¹ • v := by
  simp [normalize, h]

end Vec3

/-- Norm of an axis-aligned vector `⟨a, 0, 0⟩` with `0 ≤ a`. -/
theorem norm_axis (a : ℝ) (h : 0 ≤ a) : Vec3.norm ⟨a, 0, 0⟩ = a := by
  simp only [Vec3.norm]
  rw [show a ^ 2 + 0 ^ 2 + 0 ^ 2 = a ^ 2 by ring, Real.sqrt_sq h]

/-- Per-category motion profile: the `speed` / `damping` / `repulsionWeight`
triple chosen by the `if` chain at lines 408-447 of `updateList`. -/
structure Profile where
  speed : ℝ
  damping : ℝ
  repulsionWeight : ℝ

/-- The six ornament categories of `Ornaments`. -/
inductive OrnType
  | bauble
  | box
  | star
  | bell
  | cane
  | light
deriving DecidableEq

/-- Type profile table, transcribing the constants of lines 408-447. -/
def profileFor : OrnType → Profile
  | .box => ⟨1.2, 0.82, 0.2⟩
  | .star => ⟨4.0, 0.92, 1.2⟩
  | .bell => ⟨2.0, 0.88, 0.5⟩
  | .cane => ⟨4.0, 0.94, 1.5⟩
  | .light => ⟨6.0, 0.95, 2.5⟩
  | .bauble => ⟨2.8, 0.9, 0.8⟩

/-- Mutable per-ornament state (`OrnamentData`, lines 265-273); the fields
not touched by the position physics (`color`) are omitted. -/
@[ext] structure OrnItem where
  chaos : Vec3
  target : Vec3
  current : Vec3
  velocity : Vec3
  scale : ℝ
  phase : ℝ

/-- One physics tick for one ornament: the body of the `list.forEach` in
`updateList` (lines 404-463), position/velocity part.  Sequential steps as
in the source: destination choice, directional force into velocity, pointer
repulsion into velocity, damping, position integration. -/
noncomputable def updateOrnament (ty : OrnType) (isFormed : Bool) (mouse : Vec3)
    (delta : ℝ) (item : OrnItem) : OrnItem :=
  let prof := profileFor ty
  let dest := if isFormed then item.target else item.chaos
  let force := (prof.speed * delta) • (dest - item.current)
  let v1 := item.velocity + force
  let d := Vec3.distTo item.current mouse
  let v2 :=
    if d < 3.5 then
      v1 + ((3.5 - d) * 15.0 * delta * prof.repulsionWeight) •
        Vec3.normalize (item.current - mouse)
    else v1
  let v3 := prof.damping • v2
  { item with velocity := v3, current := item.current + v3 }

/-- The directional ("spring") force of line 450:
`dest.clone().sub(item.current).multiplyScalar(speed * delta)`. -/
noncomputable def directionalForce (prof : Profile) (dest cur : Vec3) (delta : ℝ) : Vec3 :=
  (prof.speed * delta) • (dest - cur)

/-- The pointer-repulsion velocity contribution of lines 454-459, as a
stand-alone function of the pointer position, the item position, the time
delta and the category repulsion weight. -/
noncomputable def repulsionContribution (mouse p : Vec3) (delta w : ℝ) : Vec3 :=
  if Vec3.distTo p mouse < 3.5 then
    ((3.5 - Vec3.distTo p mouse) * 15.0 * delta * w) • Vec3.normalize (p - mouse)
  else Vec3.zero

/-- Distance of an axis-aligned point from the origin. -/
theorem distTo_axis (a : ℝ) (h : 0 ≤ a) : Vec3.distTo ⟨a, 0, 0⟩ ⟨0, 0, 0⟩ = a := by
  have hsub : (⟨a, 0, 0⟩ : Vec3) - ⟨0, 0, 0⟩ = ⟨a, 0, 0⟩ := by ext <;> simp
  rw [Vec3.distTo, hsub]
  exact norm_axis a h

/-- Claim C1: each ornament tick picks the destination by mode (target when
formed, chaos when chaos), adds the directional force and the pointer
repulsion to the velocity, damps the velocity, and finally integrates it,
so the new position is the old position plus damping times (old velocity +
directional force + repulsion), and the new velocity is that damped sum. -/
theorem integrator_tick_order (ty : OrnType) (isFormed : Bool) (mouse : Vec3)
    (delta : ℝ) (item : OrnItem) :
    (updateOrnament ty isFormed mouse delta item).current
      = item.current + (profileFor ty).damping •
          (item.velocity
            + directionalForce (profileFor ty)
                (if isFormed then item.target else item.chaos) item.current delta
            + repulsionContribution mouse item.current delta
                (profileFor ty).repulsionWeight)
  ∧ (updateOrnament ty isFormed mouse delta item).velocity
      = (profileFor ty).damping •
          (item.velocity
            + directionalForce (profileFor ty)
                (if isFormed then item.target else item.chaos) item.current delta
            + repulsionContribution mouse item.current delta
                (profileFor ty).repulsionWeight) := by
  constructor <;>
  · unfold updateOrnament directionalForce repulsionContribution
    by_cases hd : Vec3.distTo item.current mouse < 3.5 <;> simp [hd, Vec3.zero]

/-- Claim C2: outside (or exactly at) the interaction radius 3.5 the
repulsion contribution is the zero vector; strictly inside it (at nonzero
distance) it is the unit vector from the pointer toward the item scaled by
((radius - distance) / radius) times the strength constant 52.5 (times the
time delta and category weight the integrator folds in), a nonnegative
multiple whenever delta and weight are nonnegative. -/
theorem repulsion_field_law (mouse p : Vec3) (delta w : ℝ) :
    (3.5 ≤ Vec3.distTo p mouse →
      repulsionContribution mouse p delta w = Vec3.zero)
  ∧ (0 < Vec3.distTo p mouse → Vec3.distTo p mouse < 3.5 →
      repulsionContribution mouse p delta w
        = (((3.5 - Vec3.distTo p mouse) / 3.5) * (52.5 * delta * w)) •
            ((Vec3.distTo p mouse)⁻¹ • (p - mouse))
      ∧ (0 ≤ delta → 0 ≤ w →
          0 ≤ ((3.5 - Vec3.distTo p mouse) / 3.5) * (52.5 * delta * w))) := by
  constructor
  · intro h
    unfold repulsionContribution
    rw [if_neg (not_lt.mpr h)]
  · intro h0 h35
    refine ⟨?_, ?_⟩
    · unfold repulsionContribution
      rw [if_pos h35, Vec3.normalize_of_norm_ne_zero (v := p - mouse) (ne_of_gt h0),
        Vec3.smul_smul, Vec3.smul_smul]
      congr 1
      have hne : Vec3.distTo p mouse ≠ 0 := ne_of_gt h0
      show (3.5 - Vec3.distTo p mouse) * 15.0 * delta * w * (Vec3.norm (p - mouse))⁻¹
        = (3.5 - Vec3.distTo p mouse) / 3.5 * (52.5 * delta * w) * (Vec3.distTo p mouse)⁻¹
      rw [show Vec3.norm (p - mouse) = Vec3.distTo p mouse from rfl]
      field_simp
      ring
    · intro hdelta hw
      have hpos : (0:ℝ) ≤ 3.5 - Vec3.distTo p mouse := by linarith
      exact mul_nonneg (div_nonneg hpos (by norm_num))
        (mul_nonneg (mul_nonneg (by norm_num) hdelta) hw)

/-- Witness for claim C2 at concrete points: distance 7 (outside the
radius, zero contribution) and distance 1 (inside, the scaled law). -/
theorem repulsion_field_law_witness :
    ((3.5:ℝ) ≤ Vec3.distTo ⟨7, 0, 0⟩ ⟨0, 0, 0⟩ ∧
      repulsionContribution ⟨0, 0, 0⟩ ⟨7, 0, 0⟩ 1 1 = Vec3.zero)
  ∧ ((0:ℝ) < Vec3.distTo ⟨1, 0, 0⟩ ⟨0, 0, 0⟩ ∧
      Vec3.distTo ⟨1, 0, 0⟩ ⟨0, 0, 0⟩ < 3.5 ∧
      repulsionContribution ⟨0, 0, 0⟩ ⟨1, 0, 0⟩ 1 1
        = (((3.5 - Vec3.distTo ⟨1, 0, 0⟩ ⟨0, 0, 0⟩) / 3.5) * (52.5 * 1 * 1)) •
            ((Vec3.distTo ⟨1, 0, 0⟩ ⟨0, 0, 0⟩)⁻¹ • ((⟨1, 0, 0⟩ : Vec3) - ⟨0, 0, 0⟩))) := by
  have h7 : Vec3.distTo (⟨7, 0, 0⟩ : Vec3) ⟨0, 0, 0⟩ = 7 := distTo_axis 7 (by norm_num)
  have h1 : Vec3.distTo (⟨1, 0, 0⟩ : Vec3) ⟨0, 0, 0⟩ = 1 := distTo_axis 1 (by norm_num)
  have hout : (3.5:ℝ) ≤ Vec3.distTo ⟨7, 0, 0⟩ ⟨0, 0, 0⟩ := by rw [h7]; norm_num
  have hin0 : (0:ℝ) < Vec3.distTo ⟨1, 0, 0⟩ ⟨0, 0, 0⟩ := by rw [h1]; norm_num
  have hin35 : Vec3.distTo (⟨1, 0, 0⟩ : Vec3) ⟨0, 0, 0⟩ < 3.5 := by rw [h1]; norm_num
  exact ⟨⟨hout, (repulsion_field_law ⟨0, 0, 0⟩ ⟨7, 0, 0⟩ 1 1).1 hout⟩,
    hin0, hin35, ((repulsion_field_law ⟨0, 0, 0⟩ ⟨1, 0, 0⟩ 1 1).2 hin0 hin35).1⟩

/-- Counterexample to claim C8: with the pointer exactly at the item's
position (distance 0), the repulsion contribution is the zero vector, whose
magnitude 0 differs from the claimed clamped maximum
(radius - 0) / radius * strength = 52.5 * delta * w (= 5.25 at delta = 0.1,
w = 1). -/
theorem zero_distance_repulsion_cex :
    repulsionContribution ⟨0, 0, 0⟩ ⟨0, 0, 0⟩ 0.1 1 = Vec3.zero
  ∧ Vec3.norm (repulsionContribution ⟨0, 0, 0⟩ ⟨0, 0, 0⟩ 0.1 1) = 0
  ∧ ¬ Vec3.norm (repulsionContribution ⟨0, 0, 0⟩ ⟨0, 0, 0⟩ 0.1 1)
      = ((3.5 - 0) / 3.5) * (52.5 * 0.1 * 1) := by
  have hz : repulsionContribution ⟨0, 0, 0⟩ ⟨0, 0, 0⟩ 0.1 1 = Vec3.zero := by
    unfold repulsionContribution
    rw [if_pos (by rw [Vec3.distTo_self]; norm_num)]
    rw [Vec3.sub_self, Vec3.normalize_zero, Vec3.smul_zero]
  refine ⟨hz, ?_, ?_⟩
  · rw [hz, Vec3.norm_zero]
  · rw [hz, Vec3.norm_zero]
    norm_num

/-- Amended claim C8: at distance 0 the repulsion contribution is the zero
vector (three.js' normalize maps the zero vector to itself), a finite
value; it is not the clamped maximum. -/
theorem zero_distance_repulsion (mouse : Vec3) (delta w : ℝ) :
    repulsionContribution mouse mouse delta w = Vec3.zero
  ∧ Vec3.norm (repulsionContribution mouse mouse delta w) = 0 := by
  have hz : repulsionContribution mouse mouse delta w = Vec3.zero := by
    unfold repulsionContribution
    rw [if_pos (by rw [Vec3.distTo_self]; norm_num)]
    rw [Vec3.sub_self, Vec3.normalize_zero, Vec3.smul_zero]
  exact ⟨hz, by rw [hz, Vec3.norm_zero]⟩

/-- Counterexample to claim C9: a tick with deltaTime = 0 is not a no-op;
an ornament whose velocity is (1,0,0) leaves the tick with velocity
damping * (1,0,0) = (0.9,0,0), and its position moves accordingly. -/
theorem zero_delta_tick_cex :
    ¬ (updateOrnament OrnType.bauble true ⟨0, 0, 0⟩ 0
        ⟨Vec3.zero, Vec3.zero, Vec3.zero, ⟨1, 0, 0⟩, 1, 0⟩).velocity
      = (⟨1, 0, 0⟩ : Vec3) := by
  intro h
  have h9 : (updateOrnament OrnType.bauble true ⟨0, 0, 0⟩ 0
      ⟨Vec3.zero, Vec3.zero, Vec3.zero, ⟨1, 0, 0⟩, 1, 0⟩).velocity
      = (⟨0.9, 0, 0⟩ : Vec3) := by
    unfold updateOrnament
    simp [profileFor, Vec3.zero]
  rw [h9] at h
  have := congrArg Vec3.x h
  norm_num at this

/-- Amended claim C9: a tick with deltaTime = 0 produces no directional
force and no repulsion (no division and, in exact arithmetic, no undefined
value), but the damping and integration steps still run: velocity becomes
damping * velocity and the position moves by that damped velocity.  The
tick is a strict no-op exactly when the incoming velocity is zero. -/
theorem zero_delta_tick (ty : OrnType) (isFormed : Bool) (mouse : Vec3)
    (item : OrnItem) :
    (updateOrnament ty isFormed mouse 0 item).velocity
      = (profileFor ty).damping • item.velocity
  ∧ (updateOrnament ty isFormed mouse 0 item).current
      = item.current + (profileFor ty).damping • item.velocity
  ∧ (item.velocity = Vec3.zero → updateOrnament ty isFormed mouse 0 item = item) := by
  have hv : (updateOrnament ty isFormed mouse 0 item).velocity
      = (profileFor ty).damping • item.velocity := by
    unfold updateOrnament
    simp
  have hc : (updateOrnament ty isFormed mouse 0 item).current
      = item.current + (profileFor ty).damping • item.velocity := by
    unfold updateOrnament
    simp
  refine ⟨hv, hc, ?_⟩
  intro h
  have hvz : (updateOrnament ty isFormed mouse 0 item).velocity = item.velocity := by
    rw [hv, h, Vec3.smul_zero]
  have hcz : (updateOrnament ty isFormed mouse 0 item).current = item.current := by
    rw [hc, h, Vec3.smul_zero, Vec3.add_zero]
  exact OrnItem.ext rfl rfl hcz hvz rfl rfl

/-- Witness for the amended claim C9: a concrete ornament with zero
velocity is untouched by a zero-delta tick. -/
theorem zero_delta_tick_witness :
    (OrnItem.mk ⟨1, 2, 3⟩ ⟨4, 5, 6⟩ ⟨7, 8, 9⟩ Vec3.zero 1 0).velocity = Vec3.zero
  ∧ updateOrnament OrnType.star false ⟨2, 2, 2⟩ 0
      (OrnItem.mk ⟨1, 2, 3⟩ ⟨4, 5, 6⟩ ⟨7, 8, 9⟩ Vec3.zero 1 0)
      = OrnItem.mk ⟨1, 2, 3⟩ ⟨4, 5, 6⟩ ⟨7, 8, 9⟩ Vec3.zero 1 0 :=
  ⟨rfl, (zero_delta_tick OrnType.star false ⟨2, 2, 2⟩
    (OrnItem.mk ⟨1, 2, 3⟩ ⟨4, 5, 6⟩ ⟨7, 8, 9⟩ Vec3.zero 1 0)).2.2 rfl⟩

/-- The two-state global mode (`GlobalMode` of the spec; the `mode` React
state of `App`). -/
inductive GMode
  | chaos
  | formed
deriving DecidableEq

/-- Initial mode: `useState('formed')` at line 923. -/
def initialGMode : GMode := GMode.formed

/-- One hysteresis update of the mode from the signal `avgDist`
(lines 984-988): above 0.25 go to chaos, below 0.15 go to formed,
otherwise keep the current mode. -/
def modeStep (m : GMode) (s : ℚ) : GMode :=
  if s > 0.25 then GMode.chaos
  else if s < 0.15 then GMode.formed
  else m

/-- Folding a whole sequence of mode-signal values through the controller. -/
def runModeSignals (m : GMode) (ss : List ℚ) : GMode :=
  ss.foldl modeStep m

/-- Claim C3: a signal above 0.25 sets chaos, below 0.15 sets formed, and
any value in the dead band leaves the mode unchanged; in particular a
sequence oscillating within [0.16, 0.24] never changes the mode, and the
initial mode is formed. -/
theorem mode_hysteresis :
    (∀ (m : GMode) (s : ℚ), s > 0.25 → modeStep m s = GMode.chaos)
  ∧ (∀ (m : GMode) (s : ℚ), s < 0.15 → modeStep m s = GMode.formed)
  ∧ (∀ (m : GMode) (s : ℚ), 0.15 ≤ s → s ≤ 0.25 → modeStep m s = m)
  ∧ (∀ (ss : List ℚ) (m : GMode),
      (∀ s ∈ ss, (0.16 : ℚ) ≤ s ∧ s ≤ 0.24) → runModeSignals m ss = m)
  ∧ initialGMode = GMode.formed := by
  have hkeep : ∀ (m : GMode) (s : ℚ), 0.15 ≤ s → s ≤ 0.25 → modeStep m s = m := by
    intro m s h1 h2
    have ha : ¬ s > 0.25 := not_lt.mpr h2
    have hb : ¬ s < 0.15 := not_lt.mpr h1
    simp [modeStep, ha, hb]
  refine ⟨?_, ?_, hkeep, ?_, rfl⟩
  · intro m s hs
    simp [modeStep, hs]
  · intro m s hs
    have ha : ¬ s > 0.25 := by
      rw [not_lt]
      calc s ≤ 0.15 := le_of_lt hs
        _ ≤ 0.25 := by norm_num
    simp [modeStep, ha, hs]
  · intro ss
    induction ss with
    | nil => intro m _; rfl
    | cons a l ih =>
      intro m h
      have ha := h a (List.mem_cons_self a l)
      have hstep : modeStep m a = m :=
        hkeep m a (by linarith [ha.1]) (by linarith [ha.2])
      have hrun : runModeSignals m (a :: l) = runModeSignals (modeStep m a) l := rfl
      rw [hrun, hstep]
      exact ih m fun s hs => h s (List.mem_cons_of_mem a hs)

/-- Witness for claim C3: concrete signal values in each region, and a
concrete oscillation inside the dead band that leaves chaos mode alone. -/
theorem mode_hysteresis_witness :
    ((0.3 : ℚ) > 0.25 ∧ modeStep GMode.formed 0.3 = GMode.chaos)
  ∧ ((0.1 : ℚ) < 0.15 ∧ modeStep GMode.chaos 0.1 = GMode.formed)
  ∧ ((0.15 : ℚ) ≤ 0.2 ∧ (0.2 : ℚ) ≤ 0.25 ∧ modeStep GMode.chaos 0.2 = GMode.chaos)
  ∧ ((∀ s ∈ [(0.16 : ℚ), 0.24, 0.16, 0.24], (0.16 : ℚ) ≤ s ∧ s ≤ 0.24)
      ∧ runModeSignals GMode.chaos [0.16, 0.24, 0.16, 0.24] = GMode.chaos) := by
  have hmem : ∀ s ∈ [(0.16 : ℚ), 0.24, 0.16, 0.24], (0.16 : ℚ) ≤ s ∧ s ≤ 0.24 := by
    intro s hs
    fin_cases hs <;> norm_num
  exact ⟨⟨by norm_num, mode_hysteresis.1 GMode.formed 0.3 (by norm_num)⟩,
    ⟨by norm_num, mode_hysteresis.2.1 GMode.chaos 0.1 (by norm_num)⟩,
    ⟨by norm_num, by norm_num,
      mode_hysteresis.2.2.1 GMode.chaos 0.2 (by norm_num) (by norm_num)⟩,
    hmem, mode_hysteresis.2.2.2.1 _ GMode.chaos hmem⟩

/-- `THREE.MathUtils.lerp x y t = (1 - t) * x + t * y` (no clamping of t). -/
def lerpMU (x y t : ℝ) : ℝ := (1 - t) * x + t * y

/-- One Foliage progress tick (lines 231-236): uProgress is lerped toward
1.0 (formed) or 0.0 (chaos) with interpolation factor delta * 0.8. -/
def foliageProgressStep (p : ℝ) (isFormed : Bool) (delta : ℝ) : ℝ :=
  lerpMU p (if isFormed then 1.0 else 0.0) (delta * 0.8)

/-- Counterexample to claim C10: starting at progress 0 in formed mode, a
frame tick with delta = 2 overshoots to 1.6, leaving [0,1]. -/
theorem progress_interval_cex :
    foliageProgressStep 0 true 2 = 1.6
  ∧ ¬ foliageProgressStep 0 true 2 ≤ 1 := by
  constructor <;> norm_num [foliageProgressStep, lerpMU]

/-- Amended claim C10: starting from a progress value in [0,1], the frame
tick keeps it in [0,1] for every nonnegative delta with delta * 0.8 <= 1
(that is, delta <= 1.25); beyond that the uncapped lerp factor overshoots. -/
theorem progress_interval (p : ℝ) (isFormed : Bool) (delta : ℝ)
    (hp0 : 0 ≤ p) (hp1 : p ≤ 1) (hd0 : 0 ≤ delta) (hd1 : delta ≤ 1.25) :
    0 ≤ foliageProgressStep p isFormed delta
  ∧ foliageProgressStep p isFormed delta ≤ 1 := by
  have ht0 : 0 ≤ delta * 0.8 := by nlinarith
  have ht1 : delta * 0.8 ≤ 1 := by nlinarith
  have hfac : 0 ≤ (1 - delta * 0.8) * p :=
    mul_nonneg (by linarith) hp0
  have hfac1 : (1 - delta * 0.8) * p ≤ 1 - delta * 0.8 := by
    nlinarith
  cases isFormed <;> simp only [foliageProgressStep, lerpMU, Bool.false_eq_true,
    if_true, if_false] <;> constructor <;> nlinarith

/-- Witness for the amended claim C10 at progress 0.5, formed mode,
delta = 1. -/
theorem progress_interval_witness :
    (0 : ℝ) ≤ 0.5 ∧ (0.5 : ℝ) ≤ 1 ∧ (0 : ℝ) ≤ 1 ∧ (1 : ℝ) ≤ 1.25
  ∧ 0 ≤ foliageProgressStep 0.5 true 1 ∧ foliageProgressStep 0.5 true 1 ≤ 1 := by
  refine ⟨by norm_num, by norm_num, by norm_num, by norm_num, ?_, ?_⟩
  · exact (progress_interval 0.5 true 1 (by norm_num) (by norm_num)
      (by norm_num) (by norm_num)).1
  · exact (progress_interval 0.5 true 1 (by norm_num) (by norm_num)
      (by norm_num) (by norm_num)).2

/-- Two-component vector for normalized screen coordinates. -/
@[ext] structure Vec2 where
  x : ℝ
  y : ℝ

/-- Screen-space distance of line 654:
`sqrt((tempV.x - handNDC_X)^2 + (tempV.y - handNDC_Y)^2)`. -/
noncomputable def screenDist (a b : Vec2) : ℝ :=
  Real.sqrt ((a.x - b.x) ^ 2 + (a.y - b.y) ^ 2)

/-- Conversion of the normalized hand position ([0,1] x [0,1], origin
top-left) to three.js NDC (lines 651-652). -/
def handNDC (h : Vec2) : Vec2 :=
  ⟨(h.x - 0.5) * 2, -((h.y - 0.5) * 2)⟩

/-- The running-minimum selection loop of `Polaroids` (lines 643-660):
`c` is the running closest distance (starting at 999), `best` the running
focused id, `i` the index/id of the first remaining candidate; a candidate
replaces the running best exactly when its distance is strictly smaller. -/
noncomputable def pickClosest : List ℝ → ℝ → Option ℕ → ℕ → Option ℕ
  | [], _, best, _ => best
  | d :: rest, c, best, i =>
    if d < c then pickClosest rest d (some i) (i + 1)
    else pickClosest rest c best (i + 1)

/-- If no candidate beats the running closest distance, the loop keeps the
incoming best id. -/
theorem pickClosest_keeps_best (ds : List ℝ) :
    ∀ (c : ℝ) (best : Option ℕ) (i : ℕ),
    (∀ (j : ℕ) (hj : j < ds.length), c ≤ ds[j]) →
    pickClosest ds c best i = best := by
  induction ds with
  | nil => intro c best i _; rfl
  | cons d rest ih =>
    intro c best i h
    have h0 : c ≤ d := by
      have := h 0 (by simp)
      simpa using this
    simp only [pickClosest, if_neg (not_lt.mpr h0)]
    refine ih c best (i + 1) ?_
    intro j hj
    have := h (j + 1) (by simpa using Nat.succ_lt_succ hj)
    simpa using this

/-- The selection loop returns the index of the first candidate attaining
the minimum distance, provided some candidate beats the initial running
distance. -/
theorem pickClosest_first_min (ds : List ℝ) :
    ∀ (c : ℝ) (best : Option ℕ) (i : ℕ),
    (∃ (j : ℕ) (hj : j < ds.length), ds[j] < c) →
    ∃ (k : ℕ) (hk : k < ds.length),
      pickClosest ds c best i = some (i + k)
      ∧ ds[k] < c
      ∧ (∀ (j : ℕ) (hj : j < ds.length), ds[k] ≤ ds[j])
      ∧ (∀ (j : ℕ) (hj : j < ds.length), j < k → ds[k] < ds[j]) := by
  induction ds with
  | nil =>
    intro c best i h
    obtain ⟨j, hj, _⟩ := h
    exact absurd hj (by simp)
  | cons d rest ih =>
    intro c best i hex
    by_cases hd : d < c
    · simp only [pickClosest, if_pos hd]
      by_cases hex2 : ∃ (j : ℕ) (hj : j < rest.length), rest[j] < d
      · obtain ⟨k', hk', heq, hltd, hle, hstrict⟩ := ih d (some i) (i + 1) hex2
        refine ⟨k' + 1, Nat.succ_lt_succ hk', ?_, ?_, ?_, ?_⟩
        · rw [heq]
          congr 1
          omega
        · simpa using lt_trans hltd hd
        · intro j hj
          cases j with
          | zero => simpa using le_of_lt hltd
          | succ j' =>
            simp only [List.getElem_cons_succ]
            exact hle j' (Nat.lt_of_succ_lt_succ hj)
        · intro j hj hjk
          cases j with
          | zero => simpa using hltd
          | succ j' =>
            simp only [List.getElem_cons_succ]
            exact hstrict j' (Nat.lt_of_succ_lt_succ hj) (Nat.lt_of_succ_lt_succ hjk)
      · push_neg at hex2
        refine ⟨0, Nat.succ_pos _, ?_, by simpa using hd, ?_, ?_⟩
        · rw [pickClosest_keeps_best rest d (some i) (i + 1) hex2]
          congr 1
        · intro j hj
          cases j with
          | zero => simp
          | succ j' =>
            simp only [List.getElem_cons_zero, List.getElem_cons_succ]
            exact hex2 j' (Nat.lt_of_succ_lt_succ hj)
        · intro j hj hjk
          omega
    · simp only [pickClosest, if_neg hd]
      have hex2 : ∃ (j : ℕ) (hj : j < rest.length), rest[j] < c := by
        obtain ⟨j, hj, hlt⟩ := hex
        cases j with
        | zero => exact absurd (by simpa using hlt) hd
        | succ j' =>
          refine ⟨j', Nat.lt_of_succ_lt_succ hj, ?_⟩
          simpa using hlt
      obtain ⟨k', hk', heq, hltc, hle, hstrict⟩ := ih c best (i + 1) hex2
      have hcd : c ≤ d := not_lt.mp hd
      refine ⟨k' + 1, Nat.succ_lt_succ hk', ?_, by simpa using hltc, ?_, ?_⟩
      · rw [heq]
        congr 1
        omega
      · intro j hj
        cases j with
        | zero => simpa using le_of_lt (lt_of_lt_of_le hltc hcd)
        | succ j' =>
          simp only [List.getElem_cons_succ]
          exact hle j' (Nat.lt_of_succ_lt_succ hj)
      · intro j hj hjk
        cases j with
        | zero => simpa using lt_of_lt_of_le hltc hcd
        | succ j' =>
          simp only [List.getElem_cons_succ]
          exact hstrict j' (Nat.lt_of_succ_lt_succ hj) (Nat.lt_of_succ_lt_succ hjk)

/-- The per-frame focus computation of `Polaroids` for an active pointer:
distances of the projected (NDC) frame positions to the pointer's NDC
position are scanned by the running-minimum loop starting at 999 with a
null id; frame ids are their population indices (line 618 and 658). -/
noncomputable def polaroidNextFocus (ps : List Vec2) (hand : Vec2) : Option ℕ :=
  pickClosest (ps.map fun q => screenDist q (handNDC hand)) 999 none 0

/-- Claim C5: with an active pointer (and the pinch signal false so the
result is stored), the selected id is the first frame attaining the
minimum projected screen-space distance to the pointer: no earlier frame
is as close, and no frame anywhere is closer.  The computation is a pure
function of the projected positions and the pointer position. -/
theorem focus_selects_first_nearest (ps : List Vec2) (hand : Vec2)
    (h : ∃ (j : ℕ) (hj : j < ps.length), screenDist ps[j] (handNDC hand) < 999) :
    ∃ (k : ℕ) (hk : k < ps.length),
      polaroidNextFocus ps hand = some k
      ∧ (∀ (j : ℕ) (hj : j < ps.length),
          screenDist ps[k] (handNDC hand) ≤ screenDist ps[j] (handNDC hand))
      ∧ (∀ (j : ℕ) (hj : j < ps.length), j < k →
          screenDist ps[k] (handNDC hand) < screenDist ps[j] (handNDC hand)) := by
  have hlen : (ps.map fun q => screenDist q (handNDC hand)).length = ps.length :=
    List.length_map _ _
  obtain ⟨j0, hj0, hj0lt⟩ := h
  have hex : ∃ (j : ℕ) (hj : j < (ps.map fun q => screenDist q (handNDC hand)).length),
      (ps.map fun q => screenDist q (handNDC hand))[j] < 999 := by
    refine ⟨j0, by omega, ?_⟩
    rw [List.getElem_map]
    exact hj0lt
  obtain ⟨k, hk, heq, _, hle, hstrict⟩ :=
    pickClosest_first_min _ 999 none 0 hex
  have hk' : k < ps.length := by omega
  refine ⟨k, hk', ?_, ?_, ?_⟩
  · unfold polaroidNextFocus
    simpa using heq
  · intro j hj
    have := hle j (by omega)
    simpa [List.getElem_map] using this
  · intro j hj hjk
    have := hstrict j (by omega) hjk
    simpa [List.getElem_map] using this

/-- Witness for claim C5: two concrete frames at NDC (1,0) and (0,0) with
the pointer at normalized (0.5, 0.5), i.e. NDC (0,0). -/
theorem focus_selects_first_nearest_witness :
    (∃ (j : ℕ) (hj : j < ([⟨1, 0⟩, ⟨0, 0⟩] : List Vec2).length),
        screenDist ([⟨1, 0⟩, ⟨0, 0⟩] : List Vec2)[j] (handNDC ⟨0.5, 0.5⟩) < 999)
  ∧ (∃ (k : ℕ) (hk : k < ([⟨1, 0⟩, ⟨0, 0⟩] : List Vec2).length),
      polaroidNextFocus [⟨1, 0⟩, ⟨0, 0⟩] ⟨0.5, 0.5⟩ = some k
      ∧ (∀ (j : ℕ) (hj : j < ([⟨1, 0⟩, ⟨0, 0⟩] : List Vec2).length),
          screenDist ([⟨1, 0⟩, ⟨0, 0⟩] : List Vec2)[k] (handNDC ⟨0.5, 0.5⟩)
            ≤ screenDist ([⟨1, 0⟩, ⟨0, 0⟩] : List Vec2)[j] (handNDC ⟨0.5, 0.5⟩))
      ∧ (∀ (j : ℕ) (hj : j < ([⟨1, 0⟩, ⟨0, 0⟩] : List Vec2).length), j < k →
          screenDist ([⟨1, 0⟩, ⟨0, 0⟩] : List Vec2)[k] (handNDC ⟨0.5, 0.5⟩)
            < screenDist ([⟨1, 0⟩, ⟨0, 0⟩] : List Vec2)[j] (handNDC ⟨0.5, 0.5⟩))) := by
  have harg : screenDist (⟨1, 0⟩ : Vec2) (handNDC ⟨0.5, 0.5⟩) = 1 := by
    simp only [screenDist, handNDC]
    norm_num
  have hex : ∃ (j : ℕ) (hj : j < ([⟨1, 0⟩, ⟨0, 0⟩] : List Vec2).length),
      screenDist ([⟨1, 0⟩, ⟨0, 0⟩] : List Vec2)[j] (handNDC ⟨0.5, 0.5⟩) < 999 := by
    refine ⟨0, by norm_num, ?_⟩
    simp only [List.getElem_cons_zero]
    rw [harg]
    norm_num
  exact ⟨hex, focus_selects_first_nearest _ _ hex⟩

/-- One per-frame input snapshot to the Polaroids focus logic. -/
structure FrameInput where
  hand : Option Vec2
  pinch : Bool
  projected : List Vec2

/-- One frame of the focus-selection state update (lines 641-666): the
candidate id is computed only when a hand position exists (otherwise it is
null), and it replaces the stored id exactly when the pinch signal is
false. -/
noncomputable def polaroidFocusUpdate (locked : Option ℕ) (f : FrameInput) : Option ℕ :=
  let nextF :=
    match f.hand with
    | none => none
    | some hp => polaroidNextFocus f.projected hp
  if f.pinch then locked else nextF

/-- Folding a sequence of frames through the focus update. -/
noncomputable def runFocusFrames (locked : Option ℕ) (fs : List FrameInput) : Option ℕ :=
  fs.foldl polaroidFocusUpdate locked

/-- Claim C6: over any run of frames in which the pinch signal is true
throughout, the locked item id is never reassigned, whatever the pointer
does in those frames. -/
theorem lock_persists_while_pinching (locked : Option ℕ) (fs : List FrameInput)
    (h : ∀ f ∈ fs, f.pinch = true) :
    runFocusFrames locked fs = locked := by
  revert h
  induction fs generalizing locked with
  | nil => intro _; rfl
  | cons f rest ih =>
    intro h
    have hf : f.pinch = true := h f (List.mem_cons_self f rest)
    have hstep : polaroidFocusUpdate locked f = locked := by
      simp [polaroidFocusUpdate, hf]
    have hrun : runFocusFrames locked (f :: rest)
        = runFocusFrames (polaroidFocusUpdate locked f) rest := rfl
    rw [hrun, hstep]
    exact ih locked fun g hg => h g (List.mem_cons_of_mem f hg)

/-- Witness for claim C6: two pinching frames (one with a moved pointer,
one with a lost pointer) leave a concrete lock unchanged. -/
theorem lock_persists_while_pinching_witness :
    (∀ f ∈ [FrameInput.mk (some ⟨0.1, 0.2⟩) true [],
            FrameInput.mk none true [⟨1, 1⟩]], f.pinch = true)
  ∧ runFocusFrames (some 5)
      [FrameInput.mk (some ⟨0.1, 0.2⟩) true [],
       FrameInput.mk none true [⟨1, 1⟩]] = some 5 := by
  have hmem : ∀ f ∈ [FrameInput.mk (some ⟨0.1, 0.2⟩) true [],
      FrameInput.mk none true [⟨1, 1⟩]], f.pinch = true := by
    intro f hf
    fin_cases hf <;> rfl
  exact ⟨hmem, lock_persists_while_pinching (some 5) _ hmem⟩

/-- `isFocused` of line 672: `photo.id === activeId && handPosition !== null`. -/
def polaroidIsFocused (locked : Option ℕ) (hand : Option Vec2) (pid : ℕ) : Bool :=
  (locked == some pid) && hand.isSome

/-- `isZoomed` of line 673: `isFocused && isPinching`. -/
def polaroidIsZoomed (locked : Option ℕ) (hand : Option Vec2) (pinch : Bool)
    (pid : ℕ) : Bool :=
  polaroidIsFocused locked hand pid && pinch

/-- Claim C7: when the pointer position is null, no frame is treated as
focused or zoomed, whatever the stored locked id and the pinch signal are;
pinch state alone cannot sustain the zoom without a live pointer. -/
theorem null_pointer_clears_lock (locked : Option ℕ) (pinch : Bool) (pid : ℕ) :
    polaroidIsFocused locked none pid = false
  ∧ polaroidIsZoomed locked none pinch pid = false := by
  constructor <;> simp [polaroidIsFocused, polaroidIsZoomed]

/-- `Math.cbrt` of a nonnegative random draw. -/
noncomputable def cbrtNN (u : ℝ) : ℝ := u ^ ((1 : ℝ) / 3)

/-- The chaos-position sampler shared by `generateTreeData` (R = 18,
lines 184-192) and the ornament generator (R = 14, lines 296-304):
radius `R * cbrt(u)`, spherical angles `theta = uT * 2 * pi`,
`phi = arccos(2 * uP - 1)`. -/
noncomputable def spherePoint (R u uT uP : ℝ) : Vec3 :=
  ⟨R * cbrtNN u * Real.sin (Real.arccos (2 * uP - 1)) * Real.cos (uT * (2 * Real.pi)),
   R * cbrtNN u * Real.sin (Real.arccos (2 * uP - 1)) * Real.sin (uT * (2 * Real.pi)),
   R * cbrtNN u * Real.cos (Real.arccos (2 * uP - 1))⟩

/-- `normalizedY` of lines 197 and 308: `1 - (y + height/2) / height` with
height 9. -/
noncomputable def treeNormalizedY (y : ℝ) : ℝ := 1 - (y + 9 / 2) / 9

/-- The foliage cone radius at normalized height h (line 199):
`radius * h^0.85` with radius 3.5 - a power-law taper with exponent
0.85 < 1. -/
noncomputable def foliageRadiusAtY (h : ℝ) : ℝ := 3.5 * h ^ (0.85 : ℝ)

/-- The six random draws consumed per foliage point by `generateTreeData`
for its two coordinates. -/
structure FoliageDraw where
  uR : ℝ
  uTheta : ℝ
  uPhi : ℝ
  uY : ℝ
  uSpiral : ℝ
  uDisk : ℝ

/-- Foliage chaos coordinate (lines 184-192). -/
noncomputable def foliageChaos (d : FoliageDraw) : Vec3 :=
  spherePoint 18 d.uR d.uTheta d.uPhi

/-- Foliage target coordinate (lines 196-207): height drawn over the
configured height, spiral angle from height and a random draw, and the
slice radius scaled by the square root of the disk draw. -/
noncomputable def foliageTarget (d : FoliageDraw) : Vec3 :=
  let y := (d.uY - 0.5) * 9
  let spiralAngle := y * 8.0 + d.uSpiral * (Real.pi * 2)
  let volumeR := foliageRadiusAtY (treeNormalizedY y) * Real.sqrt d.uDisk
  ⟨Real.cos spiralAngle * volumeR, y, Real.sin spiralAngle * volumeR⟩

/-- The ornament cone radius at normalized height h (line 309):
`(radius - 0.4) * h`, a linear taper. -/
noncomputable def ornamentRadiusAtY (h : ℝ) : ℝ := (3.5 - 0.4) * h

/-- Ornament chaos coordinate (lines 296-304). -/
noncomputable def ornamentChaos (uR uT uP : ℝ) : Vec3 := spherePoint 14 uR uT uP

/-- Ornament target coordinate (lines 307-316): the point is placed exactly
at the slice radius - there is no radial (disk) draw at all. -/
noncomputable def ornamentTarget (uY uA : ℝ) : Vec3 :=
  let y := (uY - 0.5) * (9 - 1.5)
  let r := ornamentRadiusAtY (treeNormalizedY y)
  let a := uA * (Real.pi * 2)
  ⟨Real.cos a * r, y, Real.sin a * r⟩

/-- Horizontal (xz-plane) distance from the tree axis. -/
noncomputable def horizRadius (v : Vec3) : ℝ := Real.sqrt (v.x ^ 2 + v.z ^ 2)

/-- The norm of a sampled sphere point is exactly its sampled radius. -/
theorem spherePoint_norm (R u uT uP : ℝ) (hR : 0 ≤ R) (hu : 0 ≤ u) :
    Vec3.norm (spherePoint R u uT uP) = R * cbrtNN u := by
  have hr : 0 ≤ R * cbrtNN u := mul_nonneg hR (Real.rpow_nonneg hu _)
  have h1 : Real.cos (uT * (2 * Real.pi)) ^ 2 + Real.sin (uT * (2 * Real.pi)) ^ 2 = 1 :=
    Real.cos_sq_add_sin_sq _
  have h2 : Real.sin (Real.arccos (2 * uP - 1)) ^ 2
      + Real.cos (Real.arccos (2 * uP - 1)) ^ 2 = 1 := Real.sin_sq_add_cos_sq _
  simp only [spherePoint, Vec3.norm]
  rw [show (R * cbrtNN u * Real.sin (Real.arccos (2 * uP - 1))
        * Real.cos (uT * (2 * Real.pi))) ^ 2
      + (R * cbrtNN u * Real.sin (Real.arccos (2 * uP - 1))
        * Real.sin (uT * (2 * Real.pi))) ^ 2
      + (R * cbrtNN u * Real.cos (Real.arccos (2 * uP - 1))) ^ 2
      = (R * cbrtNN u) ^ 2 from by
    linear_combination (R * cbrtNN u * Real.sin (Real.arccos (2 * uP - 1))) ^ 2 * h1
      + (R * cbrtNN u) ^ 2 * h2]
  exact Real.sqrt_sq hr

/-- The horizontal radius of a point on a circle of radius rho. -/
theorem horizRadius_circle (a rho yy : ℝ) (hrho : 0 ≤ rho) :
    horizRadius ⟨Real.cos a * rho, yy, Real.sin a * rho⟩ = rho := by
  have h1 : Real.sin a ^ 2 + Real.cos a ^ 2 = 1 := Real.sin_sq_add_cos_sq a
  simp only [horizRadius]
  rw [show (Real.cos a * rho) ^ 2 + (Real.sin a * rho) ^ 2 = rho ^ 2 from by
    linear_combination rho ^ 2 * h1]
  exact Real.sqrt_sq hrho

/-- Counterexample to claim C4: the ornament generator's cone radius is
linear in the normalized height ((3.5 - 0.4) * h), and no power-law
exponent strictly below 1 reproduces it on [0,1]; checked at height 1/2. -/
theorem ornament_cone_not_powerlaw_cex :
    ornamentRadiusAtY (1 / 2) = 3.1 * (1 / 2)
  ∧ ¬ ∃ e : ℝ, e < 1
      ∧ ∀ h : ℝ, 0 ≤ h → h ≤ 1 → ornamentRadiusAtY h = 3.1 * h ^ e := by
  constructor
  · norm_num [ornamentRadiusAtY]
  · rintro ⟨e, he, hall⟩
    have h2 := hall (1 / 2) (by norm_num) (by norm_num)
    have hval : ornamentRadiusAtY (1 / 2) = 3.1 * (1 / 2 : ℝ) := by
      norm_num [ornamentRadiusAtY]
    rw [hval] at h2
    have hpow : ((1 : ℝ) / 2) = ((1 : ℝ) / 2) ^ e :=
      mul_left_cancel₀ (by norm_num : (3.1 : ℝ) ≠ 0) h2
    have hgt : ((1 : ℝ) / 2) ^ (1 : ℝ) < ((1 : ℝ) / 2) ^ e :=
      Real.rpow_lt_rpow_of_exponent_gt (by norm_num) (by norm_num) he
    rw [Real.rpow_one, ← hpow] at hgt
    exact lt_irrefl _ hgt

/-- Amended claim C4: for foliage points the chaos coordinate has norm
exactly 18 * cbrt(draw) (hence lies in the sphere of radius 18), and the
target's horizontal radius is the power-law cone radius (exponent
0.85 < 1) scaled by the square root of the disk draw; for ornaments the
chaos coordinate has norm exactly 14 * cbrt(draw) (sphere of radius 14),
but the target sits exactly at the linear-taper slice radius - no
power law below 1 and no disk sampling. -/
theorem layout_generator_geometry (d : FoliageDraw) (uR uT uP uY uA : ℝ)
    (hfR0 : 0 ≤ d.uR) (hfR1 : d.uR ≤ 1)
    (hfY0 : 0 ≤ d.uY) (hfY1 : d.uY ≤ 1)
    (hoR0 : 0 ≤ uR) (hoR1 : uR ≤ 1)
    (hoY0 : 0 ≤ uY) (hoY1 : uY ≤ 1) :
    Vec3.norm (foliageChaos d) = 18 * cbrtNN d.uR
  ∧ Vec3.norm (foliageChaos d) ≤ 18
  ∧ horizRadius (foliageTarget d)
      = foliageRadiusAtY (treeNormalizedY ((d.uY - 0.5) * 9)) * Real.sqrt d.uDisk
  ∧ (0.85 : ℝ) < 1
  ∧ (foliageTarget d).y = (d.uY - 0.5) * 9
  ∧ Vec3.norm (ornamentChaos uR uT uP) = 14 * cbrtNN uR
  ∧ Vec3.norm (ornamentChaos uR uT uP) ≤ 14
  ∧ horizRadius (ornamentTarget uY uA)
      = ornamentRadiusAtY (treeNormalizedY ((uY - 0.5) * (9 - 1.5)))
  ∧ (ornamentTarget uY uA).y = (uY - 0.5) * (9 - 1.5) := by
  have hfnorm : Vec3.norm (foliageChaos d) = 18 * cbrtNN d.uR :=
    spherePoint_norm 18 d.uR d.uTheta d.uPhi (by norm_num) hfR0
  have honorm : Vec3.norm (ornamentChaos uR uT uP) = 14 * cbrtNN uR :=
    spherePoint_norm 14 uR uT uP (by norm_num) hoR0
  have hcbrtf : cbrtNN d.uR ≤ 1 := Real.rpow_le_one hfR0 hfR1 (by norm_num)
  have hcbrtf0 : 0 ≤ cbrtNN d.uR := Real.rpow_nonneg hfR0 _
  have hcbrto : cbrtNN uR ≤ 1 := Real.rpow_le_one hoR0 hoR1 (by norm_num)
  have hcbrto0 : 0 ≤ cbrtNN uR := Real.rpow_nonneg hoR0 _
  have hfh0 : 0 ≤ treeNormalizedY ((d.uY - 0.5) * 9) := by
    unfold treeNormalizedY
    linarith
  have hoh0 : 0 ≤ treeNormalizedY ((uY - 0.5) * (9 - 1.5)) := by
    unfold treeNormalizedY
    linarith
  have hvr0 : 0 ≤ foliageRadiusAtY (treeNormalizedY ((d.uY - 0.5) * 9)) * Real.sqrt d.uDisk :=
    mul_nonneg (mul_nonneg (by norm_num) (Real.rpow_nonneg hfh0 _)) (Real.sqrt_nonneg _)
  have hor0 : 0 ≤ ornamentRadiusAtY (treeNormalizedY ((uY - 0.5) * (9 - 1.5))) :=
    mul_nonneg (by norm_num) hoh0
  refine ⟨hfnorm, ?_, ?_, by norm_num, rfl, honorm, ?_, ?_, rfl⟩
  · rw [hfnorm]
    nlinarith
  · exact horizRadius_circle _ _ _ hvr0
  · rw [honorm]
    nlinarith
  · exact horizRadius_circle _ _ _ hor0

/-- Witness for the amended claim C4 with every random draw equal to 1/2. -/
theorem layout_generator_geometry_witness :
    ((0 : ℝ) ≤ 1 / 2 ∧ (1 / 2 : ℝ) ≤ 1)
  ∧ (Vec3.norm (foliageChaos ⟨1 / 2, 1 / 2, 1 / 2, 1 / 2, 1 / 2, 1 / 2⟩)
        = 18 * cbrtNN (1 / 2)
    ∧ Vec3.norm (foliageChaos ⟨1 / 2, 1 / 2, 1 / 2, 1 / 2, 1 / 2, 1 / 2⟩) ≤ 18
    ∧ horizRadius (foliageTarget ⟨1 / 2, 1 / 2, 1 / 2, 1 / 2, 1 / 2, 1 / 2⟩)
        = foliageRadiusAtY (treeNormalizedY (((1 : ℝ) / 2 - 0.5) * 9)) * Real.sqrt (1 / 2)
    ∧ (0.85 : ℝ) < 1
    ∧ (foliageTarget ⟨1 / 2, 1 / 2, 1 / 2, 1 / 2, 1 / 2, 1 / 2⟩).y
        = ((1 : ℝ) / 2 - 0.5) * 9
    ∧ Vec3.norm (ornamentChaos (1 / 2) (1 / 2) (1 / 2)) = 14 * cbrtNN (1 / 2)
    ∧ Vec3.norm (ornamentChaos (1 / 2) (1 / 2) (1 / 2)) ≤ 14
    ∧ horizRadius (ornamentTarget (1 / 2) (1 / 2))
        = ornamentRadiusAtY (treeNormalizedY (((1 : ℝ) / 2 - 0.5) * (9 - 1.5)))
    ∧ (ornamentTarget (1 / 2) (1 / 2)).y = ((1 : ℝ) / 2 - 0.5) * (9 - 1.5)) := by
  refine ⟨⟨by norm_num, by norm_num⟩, ?_⟩
  exact layout_generator_geometry ⟨1 / 2, 1 / 2, 1 / 2, 1 / 2, 1 / 2, 1 / 2⟩
    (1 / 2) (1 / 2) (1 / 2) (1 / 2) (1 / 2)
    (by norm_num) (by norm_num) (by norm_num) (by norm_num)
    (by norm_num) (by norm_num) (by norm_num) (by norm_num)
